import Mathlib

/-!
Verification of the quote-forge server actions (src/src/actions/index.ts)
against their specification.

The embedding models the persistent store as two lists of rows (collections
and quotes, in insertion order), the request context as an optional
authenticated user, dates as natural-number timestamps, and each of the seven
action handlers as a function that threads the store state explicitly and
returns an Except value for the structured ActionError failures.  Input
validation (the zod schemas, including their refinements) runs before the
handler, exactly as in the Astro actions pipeline; identifiers produced by
crypto.randomUUID and timestamps produced by new Date() enter as explicit
parameters.  SQL statements become list operations: a filtered select is
List.filter / List.find?, an insert appends, an update maps the patch over
the rows matching the WHERE clause, a delete removes the matching rows and
reports how many rows were affected.
-/

namespace QuoteForge

/-- The authenticated user carried in context.locals (App.Locals.user). -/
structure User where
  id : String
deriving DecidableEq, Repr

/-- The request context: either an authenticated user or nothing
(locals absent or locals.user absent). -/
abbrev Ctx := Option User

/-- A row of the QuoteCollections table (db/tables.ts). -/
structure Collection where
  id : String
  userId : String
  name : String
  description : Option String
  icon : Option String
  isDefault : Bool
  createdAt : Nat
  updatedAt : Nat
deriving DecidableEq, Repr

/-- A row of the Quotes table (db/tables.ts). -/
structure Quote where
  id : String
  collectionId : String
  userId : String
  text : String
  attributedTo : Option String
  mood : Option String
  tags : Option String
  language : Option String
  isFavorite : Bool
  isPublic : Bool
  createdAt : Nat
  updatedAt : Nat
deriving DecidableEq, Repr

/-- The persistent store: both tables, rows in insertion order. -/
structure Store where
  collections : List Collection
  quotes : List Quote
deriving DecidableEq, Repr

/-- The store with no rows. -/
def emptyStore : Store := { collections := [], quotes := [] }

/-- Symbolic ActionError codes used by the handlers, plus the code the
actions pipeline uses for zod validation failures (BAD_REQUEST). -/
inductive ErrCode where
  | unauthorized
  | notFound
  | badRequest
deriving DecidableEq, Repr

/-- A structured failure: symbolic code and human-readable message. -/
structure ActionError where
  code : ErrCode
  message : String
deriving DecidableEq, Repr

/-- The error thrown by requireUser. -/
def unauthorizedErr : ActionError :=
  { code := .unauthorized, message := "You must be signed in to perform this action." }

/-- The error thrown by getOwnedCollection when zero rows match. -/
def collectionNotFoundErr : ActionError :=
  { code := .notFound, message := "Collection not found." }

/-- The error thrown by updateQuote / deleteQuote when the (id, collectionId)
pair matches no quote row. -/
def quoteNotFoundErr : ActionError :=
  { code := .notFound, message := "Quote not found." }

/-- The failure produced when the zod input schema rejects the input
(message abstracted; the code distinguishes it from the handler errors). -/
def invalidInputErr : ActionError :=
  { code := .badRequest, message := "Failed to validate." }

/-- requireUser: yields the user from context.locals, or throws UNAUTHORIZED. -/
def requireUser (ctx : Ctx) : Except ActionError User :=
  match ctx with
  | none => .error unauthorizedErr
  | some user => .ok user

/-- getOwnedCollection: selects the collections whose id equals collectionId
AND whose userId equals userId, takes the first, and throws NOT_FOUND when
zero rows match. -/
def getOwnedCollection (collectionId userId : String) (s : Store) :
    Except ActionError Collection :=
  match s.collections.find? (fun c => c.id == collectionId && c.userId == userId) with
  | none => .error collectionNotFoundErr
  | some c => .ok c

/-- Keeps the old optional value unless the patch provides a new one
(the spread of `field !== undefined ? { field } : {}` for optional columns). -/
def patchOpt {α : Type} (new old : Option α) : Option α :=
  match new with
  | some a => some a
  | none => old

@[simp] theorem patchOpt_none {α : Type} (old : Option α) : patchOpt none old = old := rfl

@[simp] theorem patchOpt_some {α : Type} (a : α) (old : Option α) :
    patchOpt (some a) old = some a := rfl

/-! ## createCollection -/

/-- Input of createCollection after zod parsing (optional fields as Option). -/
structure CreateCollectionInput where
  name : String
  description : Option String
  icon : Option String
  isDefault : Option Bool
deriving DecidableEq, Repr

/-- The zod schema constraints of createCollection: name is min(1). -/
def createCollectionValid (i : CreateCollectionInput) : Bool :=
  decide (1 ≤ i.name.length)

/-- createCollection handler: requireUser, then insert a fresh row with both
timestamps set to now, returning the inserted row. -/
def createCollection (i : CreateCollectionInput) (ctx : Ctx) (newId : String)
    (now : Nat) (s : Store) : Except ActionError Collection × Store :=
  if createCollectionValid i then
    match requireUser ctx with
    | .error e => (.error e, s)
    | .ok user =>
      let c : Collection :=
        { id := newId, userId := user.id, name := i.name,
          description := i.description, icon := i.icon,
          isDefault := i.isDefault.getD false, createdAt := now, updatedAt := now }
      (.ok c, { s with collections := s.collections ++ [c] })
  else (.error invalidInputErr, s)

/-! ## updateCollection -/

/-- Input of updateCollection after zod parsing. -/
structure UpdateCollectionInput where
  id : String
  name : Option String
  description : Option String
  icon : Option String
  isDefault : Option Bool
deriving DecidableEq, Repr

/-- The zod schema of updateCollection: id min(1), name min(1) when present,
and the refinement that at least one patchable field is provided. -/
def updateCollectionValid (i : UpdateCollectionInput) : Bool :=
  decide (1 ≤ i.id.length) &&
  (match i.name with
   | some n => decide (1 ≤ n.length)
   | none => true) &&
  (i.name.isSome || i.description.isSome || i.icon.isSome || i.isDefault.isSome)

/-- The SET clause of updateCollection: only provided fields are applied,
updatedAt is refreshed. -/
def applyCollectionPatch (i : UpdateCollectionInput) (now : Nat) (c : Collection) :
    Collection :=
  { c with
    name := i.name.getD c.name
    description := patchOpt i.description c.description
    icon := patchOpt i.icon c.icon
    isDefault := i.isDefault.getD c.isDefault
    updatedAt := now }

/-- The effect of UPDATE QuoteCollections SET (patch) WHERE id = input.id on
the collections table. -/
def collectionsPatched (i : UpdateCollectionInput) (now : Nat) (l : List Collection) :
    List Collection :=
  l.map fun c => if c.id == i.id then applyCollectionPatch i now c else c

/-- updateCollection handler: requireUser, Ownership Guard on input.id, then
UPDATE ... WHERE id = input.id RETURNING (note: the WHERE clause of the final
write has only the id, not the userId). -/
def updateCollection (i : UpdateCollectionInput) (ctx : Ctx) (now : Nat)
    (s : Store) : Except ActionError (Option Collection) × Store :=
  if updateCollectionValid i then
    match requireUser ctx with
    | .error e => (.error e, s)
    | .ok user =>
      match getOwnedCollection i.id user.id s with
      | .error e => (.error e, s)
      | .ok _ =>
        let updated := collectionsPatched i now s.collections
        (.ok (updated.filter (fun c => c.id == i.id)).head?,
          { s with collections := updated })
  else (.error invalidInputErr, s)

/-! ## listCollections -/

/-- listCollections handler: requireUser, then select all collections whose
userId is the caller's, returning items and total. -/
def listCollections (ctx : Ctx) (s : Store) :
    Except ActionError (List Collection × Nat) × Store :=
  match requireUser ctx with
  | .error e => (.error e, s)
  | .ok user =>
    let items := s.collections.filter fun c => c.userId == user.id
    (.ok (items, items.length), s)

/-! ## createQuote -/

/-- Input of createQuote after zod parsing. -/
structure CreateQuoteInput where
  collectionId : String
  text : String
  attributedTo : Option String
  mood : Option String
  tags : Option String
  language : Option String
  isFavorite : Option Bool
  isPublic : Option Bool
deriving DecidableEq, Repr

/-- The zod schema of createQuote: collectionId min(1) and text min(1). -/
def createQuoteValid (i : CreateQuoteInput) : Bool :=
  decide (1 ≤ i.collectionId.length) && decide (1 ≤ i.text.length)

/-- createQuote handler: requireUser, Ownership Guard on input.collectionId,
then insert a fresh quote whose userId is copied from the authenticated
caller, returning the inserted row. -/
def createQuote (i : CreateQuoteInput) (ctx : Ctx) (newId : String) (now : Nat)
    (s : Store) : Except ActionError Quote × Store :=
  if createQuoteValid i then
    match requireUser ctx with
    | .error e => (.error e, s)
    | .ok user =>
      match getOwnedCollection i.collectionId user.id s with
      | .error e => (.error e, s)
      | .ok _ =>
        let q : Quote :=
          { id := newId, collectionId := i.collectionId, userId := user.id,
            text := i.text, attributedTo := i.attributedTo, mood := i.mood,
            tags := i.tags, language := i.language,
            isFavorite := i.isFavorite.getD false,
            isPublic := i.isPublic.getD false, createdAt := now, updatedAt := now }
        (.ok q, { s with quotes := s.quotes ++ [q] })
  else (.error invalidInputErr, s)

/-! ## updateQuote -/

/-- Input of updateQuote after zod parsing.  Note text is plain optional with
no min(1) constraint, unlike createQuote. -/
structure UpdateQuoteInput where
  id : String
  collectionId : String
  text : Option String
  attributedTo : Option String
  mood : Option String
  tags : Option String
  language : Option String
  isFavorite : Option Bool
  isPublic : Option Bool
deriving DecidableEq, Repr

/-- The zod schema of updateQuote: id and collectionId min(1), plus the
refinement that at least one patchable field is provided. -/
def updateQuoteValid (i : UpdateQuoteInput) : Bool :=
  decide (1 ≤ i.id.length) && decide (1 ≤ i.collectionId.length) &&
  (i.text.isSome || i.attributedTo.isSome || i.mood.isSome || i.tags.isSome ||
    i.language.isSome || i.isFavorite.isSome || i.isPublic.isSome)

/-- The SET clause of updateQuote: only provided fields are applied,
updatedAt is refreshed. -/
def applyQuotePatch (i : UpdateQuoteInput) (now : Nat) (q : Quote) : Quote :=
  { q with
    text := i.text.getD q.text
    attributedTo := patchOpt i.attributedTo q.attributedTo
    mood := patchOpt i.mood q.mood
    tags := patchOpt i.tags q.tags
    language := patchOpt i.language q.language
    isFavorite := i.isFavorite.getD q.isFavorite
    isPublic := i.isPublic.getD q.isPublic
    updatedAt := now }

/-- The effect of UPDATE Quotes SET (patch) WHERE id = input.id on the
quotes table. -/
def quotesPatched (i : UpdateQuoteInput) (now : Nat) (l : List Quote) : List Quote :=
  l.map fun q => if q.id == i.id then applyQuotePatch i now q else q

/-- updateQuote handler: requireUser, Ownership Guard on input.collectionId,
lookup of the existing quote by (id, collectionId) throwing NOT_FOUND when
absent, then UPDATE ... WHERE id = input.id RETURNING (the WHERE clause of
the final write has only the id, not the collectionId). -/
def updateQuote (i : UpdateQuoteInput) (ctx : Ctx) (now : Nat) (s : Store) :
    Except ActionError (Option Quote) × Store :=
  if updateQuoteValid i then
    match requireUser ctx with
    | .error e => (.error e, s)
    | .ok user =>
      match getOwnedCollection i.collectionId user.id s with
      | .error e => (.error e, s)
      | .ok _ =>
        match s.quotes.find? (fun q => q.id == i.id && q.collectionId == i.collectionId) with
        | none => (.error quoteNotFoundErr, s)
        | some _ =>
          let updated := quotesPatched i now s.quotes
          (.ok (updated.filter (fun q => q.id == i.id)).head?,
            { s with quotes := updated })
  else (.error invalidInputErr, s)

/-! ## deleteQuote -/

/-- Input of deleteQuote after zod parsing. -/
structure DeleteQuoteInput where
  id : String
  collectionId : String
deriving DecidableEq, Repr

/-- The zod schema of deleteQuote: id and collectionId min(1). -/
def deleteQuoteValid (i : DeleteQuoteInput) : Bool :=
  decide (1 ≤ i.id.length) && decide (1 ≤ i.collectionId.length)

/-- The effect of DELETE FROM Quotes WHERE id = input.id AND
collectionId = input.collectionId on the quotes table. -/
def quotesWithout (i : DeleteQuoteInput) (l : List Quote) : List Quote :=
  l.filter fun q => !(q.id == i.id && q.collectionId == i.collectionId)

/-- deleteQuote handler: requireUser, Ownership Guard, then
DELETE ... WHERE id = input.id AND collectionId = input.collectionId; the
delete executes first and NOT_FOUND is thrown afterwards when it affected
zero rows. -/
def deleteQuote (i : DeleteQuoteInput) (ctx : Ctx) (s : Store) :
    Except ActionError Unit × Store :=
  if deleteQuoteValid i then
    match requireUser ctx with
    | .error e => (.error e, s)
    | .ok user =>
      match getOwnedCollection i.collectionId user.id s with
      | .error e => (.error e, s)
      | .ok _ =>
        let remaining := quotesWithout i s.quotes
        let rowsAffected := s.quotes.length - remaining.length
        let s' : Store := { s with quotes := remaining }
        if rowsAffected == 0 then (.error quoteNotFoundErr, s')
        else (.ok (), s')
  else (.error invalidInputErr, s)

/-! ## listQuotes -/

/-- Input of listQuotes after zod parsing; favoritesOnly and includePublic
carry zod defaults of false, so after parsing they are plain booleans. -/
structure ListQuotesInput where
  collectionId : String
  favoritesOnly : Bool
  includePublic : Bool
deriving DecidableEq, Repr

/-- The zod schema of listQuotes: collectionId min(1). -/
def listQuotesValid (i : ListQuotesInput) : Bool :=
  decide (1 ≤ i.collectionId.length)

/-- The conjunction of filters built by listQuotes: collectionId and userId
always, isFavorite = true only when favoritesOnly is set; includePublic adds
no filter. -/
def quoteListed (i : ListQuotesInput) (uid : String) (q : Quote) : Bool :=
  q.collectionId == i.collectionId && q.userId == uid &&
    (!i.favoritesOnly || q.isFavorite)

/-- listQuotes handler: requireUser, Ownership Guard, then the filtered
select, returning items and total. -/
def listQuotes (i : ListQuotesInput) (ctx : Ctx) (s : Store) :
    Except ActionError (List Quote × Nat) × Store :=
  if listQuotesValid i then
    match requireUser ctx with
    | .error e => (.error e, s)
    | .ok user =>
      match getOwnedCollection i.collectionId user.id s with
      | .error e => (.error e, s)
      | .ok _ =>
        let items := s.quotes.filter (quoteListed i user.id)
        (.ok (items, items.length), s)
  else (.error invalidInputErr, s)

/-! ## Lemmas about the Ownership Guard -/

/-- When no collection row matches both the id and the userId, the Ownership
Guard fails with the single NOT_FOUND error, regardless of whether a row with
that id exists under another user. -/
theorem getOwnedCollection_not_found {s : Store} {cid uid : String}
    (h : ∀ c ∈ s.collections, ¬(c.id = cid ∧ c.userId = uid)) :
    getOwnedCollection cid uid s = .error collectionNotFoundErr := by
  unfold getOwnedCollection
  have hf : s.collections.find? (fun c => c.id == cid && c.userId == uid) = none := by
    apply List.find?_eq_none.mpr
    intro c hc
    simpa [Bool.and_eq_true, beq_iff_eq] using h c hc
  rw [hf]

/-- When some collection row matches both the id and the userId, the
Ownership Guard returns a matching row. -/
theorem getOwnedCollection_owned {s : Store} {cid uid : String}
    (h : ∃ c ∈ s.collections, c.id = cid ∧ c.userId = uid) :
    ∃ c, getOwnedCollection cid uid s = .ok c ∧ c ∈ s.collections ∧
      c.id = cid ∧ c.userId = uid := by
  obtain ⟨c0, hc0, hid, huid⟩ := h
  have hs : (s.collections.find? (fun c => c.id == cid && c.userId == uid)).isSome := by
    rw [List.find?_isSome]
    exact ⟨c0, hc0, by simp [hid, huid]⟩
  obtain ⟨c, hc⟩ := Option.isSome_iff_exists.mp hs
  have hmem := List.mem_of_find?_eq_some hc
  have hp := List.find?_some hc
  simp only [Bool.and_eq_true, beq_iff_eq] at hp
  refine ⟨c, ?_, hmem, hp.1, hp.2⟩
  unfold getOwnedCollection
  rw [hc]

/-- Claim C1: every operation that invokes the Ownership Guard
(updateCollection, createQuote, updateQuote, deleteQuote, listQuotes) fails
with the one NOT_FOUND error (code and message) when no collection row
matches both the given id and the caller's userId — identically whether the
collection is absent altogether or owned by another user — assuming the
caller is authenticated and the input passes the schema, so that the guard
is reached. -/
theorem c1_guard_uniform_not_found (s : Store) (uid cid : String)
    (hno : ∀ c ∈ s.collections, ¬(c.id = cid ∧ c.userId = uid)) :
    (∀ (i : UpdateCollectionInput) (now : Nat), i.id = cid →
      updateCollectionValid i = true →
      (updateCollection i (some ⟨uid⟩) now s).1 = .error collectionNotFoundErr) ∧
    (∀ (i : CreateQuoteInput) (newId : String) (now : Nat), i.collectionId = cid →
      createQuoteValid i = true →
      (createQuote i (some ⟨uid⟩) newId now s).1 = .error collectionNotFoundErr) ∧
    (∀ (i : UpdateQuoteInput) (now : Nat), i.collectionId = cid →
      updateQuoteValid i = true →
      (updateQuote i (some ⟨uid⟩) now s).1 = .error collectionNotFoundErr) ∧
    (∀ (i : DeleteQuoteInput), i.collectionId = cid → deleteQuoteValid i = true →
      (deleteQuote i (some ⟨uid⟩) s).1 = .error collectionNotFoundErr) ∧
    (∀ (i : ListQuotesInput), i.collectionId = cid → listQuotesValid i = true →
      (listQuotes i (some ⟨uid⟩) s).1 = .error collectionNotFoundErr) := by
  have hg : getOwnedCollection cid uid s = .error collectionNotFoundErr :=
    getOwnedCollection_not_found hno
  refine ⟨?_, ?_, ?_, ?_, ?_⟩
  · intro i now hid hv
    subst hid
    simp [updateCollection, requireUser, hv, hg]
  · intro i newId now hid hv
    subst hid
    simp [createQuote, requireUser, hv, hg]
  · intro i now hid hv
    subst hid
    simp [updateQuote, requireUser, hv, hg]
  · intro i hid hv
    subst hid
    simp [deleteQuote, requireUser, hv, hg]
  · intro i hid hv
    subst hid
    simp [listQuotes, requireUser, hv, hg]

/-- A concrete collection row with id c1 owned by bob. -/
def bobC1 : Collection :=
  { id := "c1", userId := "bob", name := "N", description := none,
    icon := none, isDefault := false, createdAt := 0, updatedAt := 0 }

/-- A store holding one collection owned by bob and no quotes, used to
exercise the guard from another caller. -/
def c1Store : Store :=
  { collections := [bobC1], quotes := [] }

/-- Witness for C1: alice hits the guard on bob's collection in all five
operations and gets the one NOT_FOUND error. -/
theorem c1_guard_uniform_not_found_witness :
    (updateCollection ⟨"c1", some "X", none, none, none⟩ (some ⟨"alice"⟩) 3 c1Store).1
      = .error collectionNotFoundErr ∧
    (createQuote ⟨"c1", "hello", none, none, none, none, none, none⟩
      (some ⟨"alice"⟩) "q1" 3 c1Store).1 = .error collectionNotFoundErr ∧
    (updateQuote ⟨"q1", "c1", some "t", none, none, none, none, none, none⟩
      (some ⟨"alice"⟩) 3 c1Store).1 = .error collectionNotFoundErr ∧
    (deleteQuote ⟨"q1", "c1"⟩ (some ⟨"alice"⟩) c1Store).1 = .error collectionNotFoundErr ∧
    (listQuotes ⟨"c1", false, false⟩ (some ⟨"alice"⟩) c1Store).1
      = .error collectionNotFoundErr := by
  have h := c1_guard_uniform_not_found c1Store "alice" "c1" (by decide)
  exact ⟨h.1 _ 3 rfl (by decide), h.2.1 _ "q1" 3 rfl (by decide),
    h.2.2.1 _ 3 rfl (by decide), h.2.2.2.1 _ rfl (by decide),
    h.2.2.2.2 _ rfl (by decide)⟩

/-- Claim C5: an updateCollection call providing none of name, description,
icon, isDefault, and an updateQuote call providing none of its seven
patchable fields, fail with the validation error before any store access:
the store is returned untouched and the outcome is the same for every store
and every context, owned or not. -/
theorem c5_empty_patch_rejected :
    (∀ (i : UpdateCollectionInput) (ctx : Ctx) (now : Nat) (s : Store),
      i.name = none → i.description = none → i.icon = none → i.isDefault = none →
      updateCollection i ctx now s = (.error invalidInputErr, s)) ∧
    (∀ (i : UpdateQuoteInput) (ctx : Ctx) (now : Nat) (s : Store),
      i.text = none → i.attributedTo = none → i.mood = none → i.tags = none →
      i.language = none → i.isFavorite = none → i.isPublic = none →
      updateQuote i ctx now s = (.error invalidInputErr, s)) := by
  constructor
  · intro i ctx now s h1 h2 h3 h4
    have hv : updateCollectionValid i = false := by
      simp [updateCollectionValid, h1, h2, h3, h4]
    simp [updateCollection, hv]
  · intro i ctx now s h1 h2 h3 h4 h5 h6 h7
    have hv : updateQuoteValid i = false := by
      simp [updateQuoteValid, h1, h2, h3, h4, h5, h6, h7]
    simp [updateQuote, hv]

/-- Witness for C5: empty patches on a concrete store fail validation and
leave the store as it was. -/
theorem c5_empty_patch_rejected_witness :
    updateCollection ⟨"c1", none, none, none, none⟩ (some ⟨"bob"⟩) 4 c1Store
      = (.error invalidInputErr, c1Store) ∧
    updateQuote ⟨"q1", "c1", none, none, none, none, none, none, none⟩
      (some ⟨"bob"⟩) 4 c1Store = (.error invalidInputErr, c1Store) :=
  ⟨c5_empty_patch_rejected.1 _ _ 4 _ rfl rfl rfl rfl,
    c5_empty_patch_rejected.2 _ _ 4 _ rfl rfl rfl rfl rfl rfl rfl⟩

/-- Counterexample to C7 as stated: with no user in the context, an
updateCollection input that carries zero patchable fields fails with the
validation error, not UNAUTHORIZED — the zod schema runs before the handler
(and hence before requireUser), so absence of identity does not determine
the outcome for every input. -/
theorem c7_counterexample :
    (updateCollection ⟨"c1", none, none, none, none⟩ none 0 emptyStore).1
        = .error invalidInputErr ∧
      invalidInputErr.code ≠ ErrCode.unauthorized :=
  ⟨rfl, by decide⟩

/-- Claim C7 (amended): for every input that passes the operation's input
schema, when the context carries no resolvable user each of the seven
operations fails with UNAUTHORIZED and the store is untouched; within the
handler the identity check comes before any other processing. -/
theorem c7_unauthorized_before_store :
    (∀ (i : CreateCollectionInput) (newId : String) (now : Nat) (s : Store),
      createCollectionValid i = true →
      createCollection i none newId now s = (.error unauthorizedErr, s)) ∧
    (∀ (i : UpdateCollectionInput) (now : Nat) (s : Store),
      updateCollectionValid i = true →
      updateCollection i none now s = (.error unauthorizedErr, s)) ∧
    (∀ s : Store, listCollections none s = (.error unauthorizedErr, s)) ∧
    (∀ (i : CreateQuoteInput) (newId : String) (now : Nat) (s : Store),
      createQuoteValid i = true →
      createQuote i none newId now s = (.error unauthorizedErr, s)) ∧
    (∀ (i : UpdateQuoteInput) (now : Nat) (s : Store),
      updateQuoteValid i = true →
      updateQuote i none now s = (.error unauthorizedErr, s)) ∧
    (∀ (i : DeleteQuoteInput) (s : Store),
      deleteQuoteValid i = true →
      deleteQuote i none s = (.error unauthorizedErr, s)) ∧
    (∀ (i : ListQuotesInput) (s : Store),
      listQuotesValid i = true →
      listQuotes i none s = (.error unauthorizedErr, s)) := by
  refine ⟨?_, ?_, ?_, ?_, ?_, ?_, ?_⟩
  · intro i newId now s hv
    simp [createCollection, requireUser, hv]
  · intro i now s hv
    simp [updateCollection, requireUser, hv]
  · intro s
    simp [listCollections, requireUser]
  · intro i newId now s hv
    simp [createQuote, requireUser, hv]
  · intro i now s hv
    simp [updateQuote, requireUser, hv]
  · intro i s hv
    simp [deleteQuote, requireUser, hv]
  · intro i s hv
    simp [listQuotes, requireUser, hv]

/-- Witness for the amended C7: concrete schema-conformant inputs with an
anonymous context fail UNAUTHORIZED in all seven operations. -/
theorem c7_unauthorized_before_store_witness :
    createCollection ⟨"N", none, none, none⟩ none "id1" 0 c1Store
        = (.error unauthorizedErr, c1Store) ∧
    updateCollection ⟨"c1", some "M", none, none, none⟩ none 0 c1Store
        = (.error unauthorizedErr, c1Store) ∧
    listCollections none c1Store = (.error unauthorizedErr, c1Store) ∧
    createQuote ⟨"c1", "t", none, none, none, none, none, none⟩ none "id2" 0 c1Store
        = (.error unauthorizedErr, c1Store) ∧
    updateQuote ⟨"q1", "c1", some "t", none, none, none, none, none, none⟩ none 0 c1Store
        = (.error unauthorizedErr, c1Store) ∧
    deleteQuote ⟨"q1", "c1"⟩ none c1Store = (.error unauthorizedErr, c1Store) ∧
    listQuotes ⟨"c1", false, false⟩ none c1Store = (.error unauthorizedErr, c1Store) := by
  have h := c7_unauthorized_before_store
  exact ⟨h.1 _ "id1" 0 _ (by decide), h.2.1 _ 0 _ (by decide), h.2.2.1 _,
    h.2.2.2.1 _ "id2" 0 _ (by decide), h.2.2.2.2.1 _ 0 _ (by decide),
    h.2.2.2.2.2.1 _ _ (by decide), h.2.2.2.2.2.2 _ _ (by decide)⟩

/-! ## Failure atomicity -/

/-- A filter that removed nothing, measured by length, removed nothing. -/
theorem filter_of_length_sub_zero {α : Type} (p : α → Bool) (l : List α)
    (h : l.length - (l.filter p).length = 0) : l.filter p = l := by
  have hle : (l.filter p).length ≤ l.length := List.length_filter_le p l
  have hlen : (l.filter p).length = l.length := by omega
  exact List.filter_length_eq_length.mp hlen |> List.filter_eq_self.mpr

/-- Claim C3: whenever any of the seven operations fails — UNAUTHORIZED,
NOT_FOUND or validation — the store it returns is exactly the store it was
given; in particular deleteQuote's NOT_FOUND path, where the delete statement
ran but matched zero rows. -/
theorem c3_failure_leaves_store_unchanged :
    (∀ (i : CreateCollectionInput) (ctx : Ctx) (newId : String) (now : Nat)
      (s : Store) (e : ActionError),
      (createCollection i ctx newId now s).1 = .error e →
      (createCollection i ctx newId now s).2 = s) ∧
    (∀ (i : UpdateCollectionInput) (ctx : Ctx) (now : Nat) (s : Store) (e : ActionError),
      (updateCollection i ctx now s).1 = .error e →
      (updateCollection i ctx now s).2 = s) ∧
    (∀ (ctx : Ctx) (s : Store) (e : ActionError),
      (listCollections ctx s).1 = .error e → (listCollections ctx s).2 = s) ∧
    (∀ (i : CreateQuoteInput) (ctx : Ctx) (newId : String) (now : Nat)
      (s : Store) (e : ActionError),
      (createQuote i ctx newId now s).1 = .error e →
      (createQuote i ctx newId now s).2 = s) ∧
    (∀ (i : UpdateQuoteInput) (ctx : Ctx) (now : Nat) (s : Store) (e : ActionError),
      (updateQuote i ctx now s).1 = .error e → (updateQuote i ctx now s).2 = s) ∧
    (∀ (i : DeleteQuoteInput) (ctx : Ctx) (s : Store) (e : ActionError),
      (deleteQuote i ctx s).1 = .error e → (deleteQuote i ctx s).2 = s) ∧
    (∀ (i : ListQuotesInput) (ctx : Ctx) (s : Store) (e : ActionError),
      (listQuotes i ctx s).1 = .error e → (listQuotes i ctx s).2 = s) := by
  refine ⟨?_, ?_, ?_, ?_, ?_, ?_, ?_⟩
  · intro i ctx newId now s e h
    by_cases hv : createCollectionValid i = true
    · cases hr : requireUser ctx with
      | error e2 => simp [createCollection, hv, hr]
      | ok u => simp [createCollection, hv, hr] at h
    · simp [createCollection, hv]
  · intro i ctx now s e h
    by_cases hv : updateCollectionValid i = true
    · cases hr : requireUser ctx with
      | error e2 => simp [updateCollection, hv, hr]
      | ok u =>
        cases hg : getOwnedCollection i.id u.id s with
        | error e2 => simp [updateCollection, hv, hr, hg]
        | ok c => simp [updateCollection, hv, hr, hg] at h
    · simp [updateCollection, hv]
  · intro ctx s e h
    cases hr : requireUser ctx with
    | error e2 => simp [listCollections, hr]
    | ok u => simp [listCollections, hr] at h
  · intro i ctx newId now s e h
    by_cases hv : createQuoteValid i = true
    · cases hr : requireUser ctx with
      | error e2 => simp [createQuote, hv, hr]
      | ok u =>
        cases hg : getOwnedCollection i.collectionId u.id s with
        | error e2 => simp [createQuote, hv, hr, hg]
        | ok c => simp [createQuote, hv, hr, hg] at h
    · simp [createQuote, hv]
  · intro i ctx now s e h
    by_cases hv : updateQuoteValid i = true
    · cases hr : requireUser ctx with
      | error e2 => simp [updateQuote, hv, hr]
      | ok u =>
        cases hg : getOwnedCollection i.collectionId u.id s with
        | error e2 => simp [updateQuote, hv, hr, hg]
        | ok c =>
          cases hf : s.quotes.find?
              (fun q => q.id == i.id && q.collectionId == i.collectionId) with
          | none => simp [updateQuote, hv, hr, hg, hf]
          | some q0 => simp [updateQuote, hv, hr, hg, hf] at h
    · simp [updateQuote, hv]
  · intro i ctx s e h
    by_cases hv : deleteQuoteValid i = true
    · cases hr : requireUser ctx with
      | error e2 => simp [deleteQuote, hv, hr]
      | ok u =>
        cases hg : getOwnedCollection i.collectionId u.id s with
        | error e2 => simp [deleteQuote, hv, hr, hg]
        | ok c =>
          by_cases hz : s.quotes.length - (quotesWithout i s.quotes).length = 0
          · have hrem : quotesWithout i s.quotes = s.quotes := by
              unfold quotesWithout at hz ⊢
              exact filter_of_length_sub_zero _ s.quotes hz
            simp [deleteQuote, hv, hr, hg, hz, hrem]
          · simp [deleteQuote, hv, hr, hg, hz] at h
    · simp [deleteQuote, hv]
  · intro i ctx s e h
    by_cases hv : listQuotesValid i = true
    · cases hr : requireUser ctx with
      | error e2 => simp [listQuotes, hv, hr]
      | ok u =>
        cases hg : getOwnedCollection i.collectionId u.id s with
        | error e2 => simp [listQuotes, hv, hr, hg]
        | ok c => simp [listQuotes, hv, hr, hg]
    · simp [listQuotes, hv]

/-- Witness for C3: a deleteQuote whose guard passes but whose (id,
collectionId) pair matches nothing fails NOT_FOUND and leaves the concrete
store unchanged. -/
theorem c3_failure_leaves_store_unchanged_witness :
    (deleteQuote ⟨"q9", "c1"⟩ (some ⟨"bob"⟩) c1Store).1 = .error quoteNotFoundErr ∧
    (deleteQuote ⟨"q9", "c1"⟩ (some ⟨"bob"⟩) c1Store).2 = c1Store := by
  refine ⟨rfl, ?_⟩
  exact c3_failure_leaves_store_unchanged.2.2.2.2.2.1 _ _ _ quoteNotFoundErr rfl

/-- Claim C6: for a caller who owns the stated collection, when no quote row
matches the (id, collectionId) pair — e.g. the quote id exists only under a
different collection — updateQuote and deleteQuote both fail with the quote
NOT_FOUND error and return the store unchanged, leaving any quote stored
under the other collection intact. -/
theorem c6_quote_pair_not_found (s : Store) (uid cid qid : String)
    (howned : ∃ c ∈ s.collections, c.id = cid ∧ c.userId = uid)
    (hnoq : ∀ q ∈ s.quotes, ¬(q.id = qid ∧ q.collectionId = cid)) :
    (∀ (i : UpdateQuoteInput) (now : Nat), i.id = qid → i.collectionId = cid →
      updateQuoteValid i = true →
      updateQuote i (some ⟨uid⟩) now s = (.error quoteNotFoundErr, s)) ∧
    (∀ i : DeleteQuoteInput, i.id = qid → i.collectionId = cid →
      deleteQuoteValid i = true →
      deleteQuote i (some ⟨uid⟩) s = (.error quoteNotFoundErr, s)) := by
  obtain ⟨c, hgc, -, -, -⟩ := getOwnedCollection_owned howned
  have hf : s.quotes.find? (fun q => q.id == qid && q.collectionId == cid) = none := by
    apply List.find?_eq_none.mpr
    intro q hq
    simpa [Bool.and_eq_true, beq_iff_eq] using hnoq q hq
  constructor
  · intro i now hid hcid hv
    subst hid
    subst hcid
    simp [updateQuote, requireUser, hv, hgc, hf]
  · intro i hid hcid hv
    subst hid
    subst hcid
    have hrem : quotesWithout i s.quotes = s.quotes := by
      unfold quotesWithout
      apply List.filter_eq_self.mpr
      intro q hq
      by_cases h1 : q.id = i.id
      · by_cases h2 : q.collectionId = i.collectionId
        · exact absurd ⟨h1, h2⟩ (hnoq q hq)
        · simp [h1, h2]
      · simp [h1]
    simp [deleteQuote, requireUser, hv, hgc, hrem]

/-- A quote with id q9 stored under collection c2, not c1. -/
def q9c2 : Quote :=
  { id := "q9", collectionId := "c2", userId := "bob", text := "T",
    attributedTo := none, mood := none, tags := none, language := none,
    isFavorite := false, isPublic := false, createdAt := 0, updatedAt := 0 }

/-- A store where bob owns c1 while quote q9 lives under collection c2. -/
def c6Store : Store := { collections := [bobC1], quotes := [q9c2] }

/-- Witness for C6: bob owns c1, quote q9 exists only under c2; updating or
deleting (q9, c1) fails NOT_FOUND and q9 survives untouched. -/
theorem c6_quote_pair_not_found_witness :
    updateQuote ⟨"q9", "c1", some "new", none, none, none, none, none, none⟩
        (some ⟨"bob"⟩) 8 c6Store = (.error quoteNotFoundErr, c6Store) ∧
    deleteQuote ⟨"q9", "c1"⟩ (some ⟨"bob"⟩) c6Store
        = (.error quoteNotFoundErr, c6Store) := by
  have h := c6_quote_pair_not_found c6Store "bob" "c1" "q9" (by decide) (by decide)
  exact ⟨h.1 _ 8 rfl rfl (by decide), h.2 _ rfl rfl (by decide)⟩

/-- Claim C4: a successful updateQuote that provides only mood (besides the
required id and collectionId) rewrites the store so that the collections
table is untouched and every quote row either has a different id and is
exactly its old value, or has the target id and differs from its old value
in mood and updatedAt alone — id, collectionId, userId, text, attributedTo,
tags, language, isFavorite, isPublic and createdAt all kept. -/
theorem c4_mood_only_update_frame (i : UpdateQuoteInput) (m : String) (ctx : Ctx)
    (now : Nat) (s : Store) (r : Option Quote)
    (htext : i.text = none) (hattr : i.attributedTo = none) (hmood : i.mood = some m)
    (htags : i.tags = none) (hlang : i.language = none) (hfav : i.isFavorite = none)
    (hpub : i.isPublic = none)
    (hok : (updateQuote i ctx now s).1 = .ok r) :
    (updateQuote i ctx now s).2.collections = s.collections ∧
    (updateQuote i ctx now s).2.quotes = s.quotes.map fun q =>
      if q.id = i.id then { q with mood := some m, updatedAt := now } else q := by
  have hpatch : ∀ q : Quote,
      applyQuotePatch i now q = { q with mood := some m, updatedAt := now } := by
    intro q
    simp [applyQuotePatch, htext, hattr, hmood, htags, hlang, hfav, hpub]
  by_cases hv : updateQuoteValid i = true
  · cases hr : requireUser ctx with
    | error e2 => simp [updateQuote, hv, hr] at hok
    | ok u =>
      cases hg : getOwnedCollection i.collectionId u.id s with
      | error e2 => simp [updateQuote, hv, hr, hg] at hok
      | ok c =>
        cases hf : s.quotes.find?
            (fun q => q.id == i.id && q.collectionId == i.collectionId) with
        | none => simp [updateQuote, hv, hr, hg, hf] at hok
        | some q0 =>
          refine ⟨by simp [updateQuote, hv, hr, hg, hf], ?_⟩
          simp only [updateQuote, hv, hr, hg, hf, if_true, quotesPatched]
          apply List.map_congr_left
          intro q _
          by_cases hid : q.id = i.id <;> simp [hid, hpatch]
  · simp [updateQuote, hv] at hok

/-- A quote q1 under collection c1 owned by bob, with some metadata set. -/
def q1c1 : Quote :=
  { id := "q1", collectionId := "c1", userId := "bob", text := "Keep going",
    attributedTo := some "K", mood := some "calm", tags := none, language := none,
    isFavorite := false, isPublic := false, createdAt := 1, updatedAt := 1 }

/-- A store where bob owns c1 holding the single quote q1. -/
def c4Store : Store := { collections := [bobC1], quotes := [q1c1] }

/-- Witness for C4: a concrete mood-only update of q1 leaves everything but
mood and updatedAt as it was. -/
theorem c4_mood_only_update_frame_witness :
    (updateQuote ⟨"q1", "c1", none, none, some "inspiring", none, none, none, none⟩
        (some ⟨"bob"⟩) 9 c4Store).2.collections = c4Store.collections ∧
    (updateQuote ⟨"q1", "c1", none, none, some "inspiring", none, none, none, none⟩
        (some ⟨"bob"⟩) 9 c4Store).2.quotes = c4Store.quotes.map fun q =>
      if q.id = "q1" then { q with mood := some "inspiring", updatedAt := 9 } else q :=
  c4_mood_only_update_frame _ "inspiring" _ 9 c4Store
    (some { q1c1 with mood := some "inspiring", updatedAt := 9 })
    rfl rfl rfl rfl rfl rfl rfl rfl

/-- Claim C9: updateQuote accepts text as the empty string — the refinement
only excludes undefined and optional text carries no min(1) — and stores it,
although createQuote rejects empty text; on the concrete store the update
succeeds and overwrites the non-empty body with the empty string. -/
theorem c9_empty_text_update_accepted :
    updateQuoteValid ⟨"q1", "c1", some "", none, none, none, none, none, none⟩ = true ∧
    createQuoteValid ⟨"c1", "", none, none, none, none, none, none⟩ = false ∧
    (updateQuote ⟨"q1", "c1", some "", none, none, none, none, none, none⟩
        (some ⟨"bob"⟩) 5 c4Store).1
      = .ok (some { q1c1 with text := "", updatedAt := 5 }) ∧
    (updateQuote ⟨"q1", "c1", some "", none, none, none, none, none, none⟩
        (some ⟨"bob"⟩) 5 c4Store).2.quotes
      = [{ q1c1 with text := "", updatedAt := 5 }] :=
  ⟨by decide, by decide, rfl, rfl⟩

/-- A favorite quote under c1 owned by bob. -/
def qFav : Quote :=
  { id := "qf", collectionId := "c1", userId := "bob", text := "F",
    attributedTo := none, mood := none, tags := none, language := none,
    isFavorite := true, isPublic := false, createdAt := 0, updatedAt := 0 }

/-- A non-favorite quote under c1 owned by bob. -/
def qPlain : Quote :=
  { id := "qp", collectionId := "c1", userId := "bob", text := "P",
    attributedTo := none, mood := none, tags := none, language := none,
    isFavorite := false, isPublic := false, createdAt := 0, updatedAt := 0 }

/-- A store whose only quote in c1 is a favorite. -/
def c8Store : Store := { collections := [bobC1], quotes := [qFav] }

/-- A store holding one favorite and one non-favorite quote in c1. -/
def c8bStore : Store := { collections := [bobC1], quotes := [qFav, qPlain] }

/-- Counterexample to C8 as stated: on a store whose only quote in the
collection is a favorite, listQuotes with favoritesOnly returns exactly the
default listing (the same nonempty row set), so the favorites-only result
is not a strict subset of the default result. -/
theorem c8_counterexample :
    (listQuotes ⟨"c1", true, false⟩ (some ⟨"bob"⟩) c8Store).1
      = (listQuotes ⟨"c1", false, false⟩ (some ⟨"bob"⟩) c8Store).1 ∧
    (listQuotes ⟨"c1", false, false⟩ (some ⟨"bob"⟩) c8Store).1 = .ok ([qFav], 1) :=
  ⟨rfl, rfl⟩

/-- Claim C8 (amended): listQuotes with favoritesOnly true returns exactly
the rows of the default listing whose isFavorite is true — a sublist of the
default listing, though not necessarily a strict subset. -/
theorem c8_favorites_filter (cid : String) (p p2 : Bool) (uid : String) (s : Store)
    (items items2 : List Quote) (total total2 : Nat)
    (hfav : (listQuotes ⟨cid, true, p⟩ (some ⟨uid⟩) s).1 = .ok (items, total))
    (hdef : (listQuotes ⟨cid, false, p2⟩ (some ⟨uid⟩) s).1 = .ok (items2, total2)) :
    items = items2.filter (fun q => q.isFavorite) ∧
      ∀ q ∈ items, q.isFavorite = true := by
  by_cases hv : listQuotesValid ⟨cid, true, p⟩ = true
  · have hv2 : listQuotesValid ⟨cid, false, p2⟩ = true := hv
    cases hg : getOwnedCollection cid uid s with
    | error e =>
      simp [listQuotes, hv, requireUser, hg] at hfav
    | ok c =>
      simp [listQuotes, hv, hv2, requireUser, hg, quoteListed] at hfav hdef
      obtain ⟨hitems, -⟩ := hfav
      obtain ⟨hitems2, -⟩ := hdef
      subst hitems
      subst hitems2
      constructor
      · rw [List.filter_filter]
        apply List.filter_congr
        intro q _
        simp [quoteListed, Bool.and_comm, Bool.and_left_comm, Bool.and_assoc]
      · intro q hq
        have hm := (List.mem_filter.mp hq).2
        simp [quoteListed] at hm
        exact hm.2
  · simp [listQuotes, hv] at hfav

/-- Witness for the amended C8: on a store with one favorite and one plain
quote, the favorites listing is exactly the favorite rows of the default
listing. -/
theorem c8_favorites_filter_witness :
    ([qFav] : List Quote) = ([qFav, qPlain].filter fun q => q.isFavorite) ∧
      ∀ q ∈ ([qFav] : List Quote), q.isFavorite = true :=
  c8_favorites_filter "c1" false false "bob" c8bStore [qFav] [qFav, qPlain] 1 2 rfl rfl

/-! ## State characterization of each operation, and the ownership invariant -/

/-- When the Ownership Guard succeeds, the returned collection is a row of
the store matching both the id and the userId. -/
theorem getOwnedCollection_ok {cid uid : String} {s : Store} {c : Collection}
    (h : getOwnedCollection cid uid s = .ok c) :
    c ∈ s.collections ∧ c.id = cid ∧ c.userId = uid := by
  unfold getOwnedCollection at h
  cases hf : s.collections.find? (fun x => x.id == cid && x.userId == uid) with
  | none => rw [hf] at h; cases h
  | some c0 =>
    rw [hf] at h
    have hc0 : c0 = c := by injection h
    subst hc0
    have hp := List.find?_some hf
    simp only [Bool.and_eq_true, beq_iff_eq] at hp
    exact ⟨List.mem_of_find?_eq_some hf, hp.1, hp.2⟩

@[simp] theorem applyCollectionPatch_id (i : UpdateCollectionInput) (now : Nat)
    (c : Collection) : (applyCollectionPatch i now c).id = c.id := rfl

@[simp] theorem applyCollectionPatch_userId (i : UpdateCollectionInput) (now : Nat)
    (c : Collection) : (applyCollectionPatch i now c).userId = c.userId := rfl

@[simp] theorem applyQuotePatch_id (i : UpdateQuoteInput) (now : Nat) (q : Quote) :
    (applyQuotePatch i now q).id = q.id := rfl

@[simp] theorem applyQuotePatch_collectionId (i : UpdateQuoteInput) (now : Nat)
    (q : Quote) : (applyQuotePatch i now q).collectionId = q.collectionId := rfl

@[simp] theorem applyQuotePatch_userId (i : UpdateQuoteInput) (now : Nat) (q : Quote) :
    (applyQuotePatch i now q).userId = q.userId := rfl

@[simp] theorem applyQuotePatch_createdAt (i : UpdateQuoteInput) (now : Nat) (q : Quote) :
    (applyQuotePatch i now q).createdAt = q.createdAt := rfl

/-- Rows patched by updateCollection keep their id. -/
@[simp] theorem patchedCollection_id (i : UpdateCollectionInput) (now : Nat)
    (c : Collection) :
    (if c.id == i.id then applyCollectionPatch i now c else c).id = c.id := by
  split <;> rfl

/-- Rows patched by updateCollection keep their userId. -/
@[simp] theorem patchedCollection_userId (i : UpdateCollectionInput) (now : Nat)
    (c : Collection) :
    (if c.id == i.id then applyCollectionPatch i now c else c).userId = c.userId := by
  split <;> rfl

/-- Rows patched by updateQuote keep their id. -/
@[simp] theorem patchedQuote_id (i : UpdateQuoteInput) (now : Nat) (q : Quote) :
    (if q.id == i.id then applyQuotePatch i now q else q).id = q.id := by
  split <;> rfl

/-- Rows patched by updateQuote keep their collectionId. -/
@[simp] theorem patchedQuote_collectionId (i : UpdateQuoteInput) (now : Nat) (q : Quote) :
    (if q.id == i.id then applyQuotePatch i now q else q).collectionId
      = q.collectionId := by
  split <;> rfl

/-- Rows patched by updateQuote keep their userId. -/
@[simp] theorem patchedQuote_userId (i : UpdateQuoteInput) (now : Nat) (q : Quote) :
    (if q.id == i.id then applyQuotePatch i now q else q).userId = q.userId := by
  split <;> rfl

/-- The collection row inserted by createCollection. -/
def newCollectionRow (i : CreateCollectionInput) (newId : String) (now : Nat)
    (u : User) : Collection :=
  { id := newId, userId := u.id, name := i.name, description := i.description,
    icon := i.icon, isDefault := i.isDefault.getD false,
    createdAt := now, updatedAt := now }

/-- The quote row inserted by createQuote. -/
def newQuoteRow (i : CreateQuoteInput) (newId : String) (now : Nat) (u : User) :
    Quote :=
  { id := newId, collectionId := i.collectionId, userId := u.id, text := i.text,
    attributedTo := i.attributedTo, mood := i.mood, tags := i.tags,
    language := i.language, isFavorite := i.isFavorite.getD false,
    isPublic := i.isPublic.getD false, createdAt := now, updatedAt := now }

/-- createCollection either leaves the store alone (failure) or appends one
collection row owned by the authenticated caller. -/
theorem createCollection_state (i : CreateCollectionInput) (ctx : Ctx)
    (newId : String) (now : Nat) (s : Store) :
    (createCollection i ctx newId now s).2 = s ∨
    ∃ u : User, ctx = some u ∧ (createCollection i ctx newId now s).2
      = { s with collections := s.collections ++ [newCollectionRow i newId now u] } := by
  by_cases hv : createCollectionValid i = true
  · cases hctx : ctx with
    | none => left; simp [createCollection, requireUser, hv]
    | some u =>
      right
      exact ⟨u, rfl, by simp [createCollection, requireUser, hv, newCollectionRow]⟩
  · left; simp [createCollection, hv]

/-- updateCollection either leaves the store alone (failure) or replaces the
collections table by its patched image. -/
theorem updateCollection_state (i : UpdateCollectionInput) (ctx : Ctx) (now : Nat)
    (s : Store) :
    (updateCollection i ctx now s).2 = s ∨
    (updateCollection i ctx now s).2
      = { s with collections := collectionsPatched i now s.collections } := by
  by_cases hv : updateCollectionValid i = true
  · cases hr : requireUser ctx with
    | error e => left; simp [updateCollection, hv, hr]
    | ok u =>
      cases hg : getOwnedCollection i.id u.id s with
      | error e => left; simp [updateCollection, hv, hr, hg]
      | ok c => right; simp [updateCollection, hv, hr, hg]
  · left; simp [updateCollection, hv]

/-- listCollections never writes. -/
theorem listCollections_state (ctx : Ctx) (s : Store) :
    (listCollections ctx s).2 = s := by
  cases hr : requireUser ctx <;> simp [listCollections, hr]

/-- createQuote either leaves the store alone (failure) or — the guard having
matched a collection row owned by the caller — appends one quote row whose
userId is the caller's id. -/
theorem createQuote_state (i : CreateQuoteInput) (ctx : Ctx) (newId : String)
    (now : Nat) (s : Store) :
    (createQuote i ctx newId now s).2 = s ∨
    ∃ u : User, ctx = some u ∧
      (∃ c ∈ s.collections, c.id = i.collectionId ∧ c.userId = u.id) ∧
      (createQuote i ctx newId now s).2
        = { s with quotes := s.quotes ++ [newQuoteRow i newId now u] } := by
  by_cases hv : createQuoteValid i = true
  · cases hctx : ctx with
    | none => left; simp [createQuote, requireUser, hv]
    | some u =>
      cases hg : getOwnedCollection i.collectionId u.id s with
      | error e => left; simp [createQuote, requireUser, hv, hg]
      | ok c =>
        right
        obtain ⟨hmem, hcid, huid⟩ := getOwnedCollection_ok hg
        exact ⟨u, rfl, ⟨c, hmem, hcid, huid⟩,
          by simp [createQuote, requireUser, hv, hg, newQuoteRow]⟩
  · left; simp [createQuote, hv]

/-- updateQuote either leaves the store alone (failure) or replaces the
quotes table by its patched image. -/
theorem updateQuote_state (i : UpdateQuoteInput) (ctx : Ctx) (now : Nat) (s : Store) :
    (updateQuote i ctx now s).2 = s ∨
    (updateQuote i ctx now s).2 = { s with quotes := quotesPatched i now s.quotes } := by
  by_cases hv : updateQuoteValid i = true
  · cases hr : requireUser ctx with
    | error e => left; simp [updateQuote, hv, hr]
    | ok u =>
      cases hg : getOwnedCollection i.collectionId u.id s with
      | error e => left; simp [updateQuote, hv, hr, hg]
      | ok c =>
        cases hf : s.quotes.find?
            (fun q => q.id == i.id && q.collectionId == i.collectionId) with
        | none => left; simp [updateQuote, hv, hr, hg, hf]
        | some q0 => right; simp [updateQuote, hv, hr, hg, hf]
  · left; simp [updateQuote, hv]

/-- deleteQuote either leaves the store alone or removes exactly the rows
matching the (id, collectionId) pair. -/
theorem deleteQuote_state (i : DeleteQuoteInput) (ctx : Ctx) (s : Store) :
    (deleteQuote i ctx s).2 = s ∨
    (deleteQuote i ctx s).2 = { s with quotes := quotesWithout i s.quotes } := by
  by_cases hv : deleteQuoteValid i = true
  · cases hr : requireUser ctx with
    | error e => left; simp [deleteQuote, hv, hr]
    | ok u =>
      cases hg : getOwnedCollection i.collectionId u.id s with
      | error e => left; simp [deleteQuote, hv, hr, hg]
      | ok c =>
        right
        by_cases hz : s.quotes.length - (quotesWithout i s.quotes).length = 0 <;>
          simp [deleteQuote, hv, hr, hg, hz]
  · left; simp [deleteQuote, hv]

/-- listQuotes never writes. -/
theorem listQuotes_state (i : ListQuotesInput) (ctx : Ctx) (s : Store) :
    (listQuotes i ctx s).2 = s := by
  by_cases hv : listQuotesValid i = true
  · cases hr : requireUser ctx with
    | error e => simp [listQuotes, hv, hr]
    | ok u =>
      cases hg : getOwnedCollection i.collectionId u.id s with
      | error e => simp [listQuotes, hv, hr, hg]
      | ok c => simp [listQuotes, hv, hr, hg]
  · simp [listQuotes, hv]

/-- Collection ids are pairwise distinct (the table's primary key). -/
def CollectionIdsDistinct (s : Store) : Prop :=
  s.collections.Pairwise fun a b => a.id ≠ b.id

/-- Every quote row agrees with the owner of a parent collection row that
carries its collectionId. -/
def QuoteOwnerMatches (s : Store) : Prop :=
  ∀ q ∈ s.quotes, ∃ c ∈ s.collections, c.id = q.collectionId ∧ c.userId = q.userId

/-- The store invariant of claim C2: the parent collection of every quote
exists, is unique, and its userId equals the quote's userId. -/
def Inv (s : Store) : Prop := CollectionIdsDistinct s ∧ QuoteOwnerMatches s

/-- One request against the store: any of the seven operations, any input,
context and clock.  Ids minted by crypto.randomUUID are modelled as strings
fresh for the table they key (the store's primary-key guarantee). -/
inductive Step : Store → Store → Prop where
  | createCollectionStep (i : CreateCollectionInput) (ctx : Ctx) (newId : String)
      (now : Nat) (s : Store) (fresh : ∀ c ∈ s.collections, c.id ≠ newId) :
      Step s (createCollection i ctx newId now s).2
  | updateCollectionStep (i : UpdateCollectionInput) (ctx : Ctx) (now : Nat)
      (s : Store) : Step s (updateCollection i ctx now s).2
  | listCollectionsStep (ctx : Ctx) (s : Store) : Step s (listCollections ctx s).2
  | createQuoteStep (i : CreateQuoteInput) (ctx : Ctx) (newId : String) (now : Nat)
      (s : Store) (fresh : ∀ q ∈ s.quotes, q.id ≠ newId) :
      Step s (createQuote i ctx newId now s).2
  | updateQuoteStep (i : UpdateQuoteInput) (ctx : Ctx) (now : Nat) (s : Store) :
      Step s (updateQuote i ctx now s).2
  | deleteQuoteStep (i : DeleteQuoteInput) (ctx : Ctx) (s : Store) :
      Step s (deleteQuote i ctx s).2
  | listQuotesStep (i : ListQuotesInput) (ctx : Ctx) (s : Store) :
      Step s (listQuotes i ctx s).2

/-- A store is reachable when some finite sequence of requests produces it
from the empty store. -/
def Reachable (s : Store) : Prop := Relation.ReflTransGen Step emptyStore s

/-- Each single request preserves the ownership invariant. -/
theorem inv_step {s s' : Store} (h : Step s s') (hs : Inv s) : Inv s' := by
  obtain ⟨hc, hq⟩ := hs
  cases h with
  | createCollectionStep i ctx newId now s fresh =>
    rcases createCollection_state i ctx newId now s with heq | ⟨u, -, heq⟩
    · rw [heq]; exact ⟨hc, hq⟩
    · rw [heq]
      constructor
      · show (s.collections ++ [newCollectionRow i newId now u]).Pairwise
          fun a b => a.id ≠ b.id
        refine List.pairwise_append.mpr ⟨hc, List.pairwise_singleton _ _, ?_⟩
        intro a ha b hb
        have hb' : b = newCollectionRow i newId now u := List.mem_singleton.mp hb
        subst hb'
        exact fresh a ha
      · intro q hqs
        obtain ⟨c, hcm, h1, h2⟩ := hq q hqs
        exact ⟨c, List.mem_append_left _ hcm, h1, h2⟩
  | updateCollectionStep i ctx now s =>
    rcases updateCollection_state i ctx now s with heq | heq
    · rw [heq]; exact ⟨hc, hq⟩
    · rw [heq]
      constructor
      · show (collectionsPatched i now s.collections).Pairwise fun a b => a.id ≠ b.id
        unfold collectionsPatched
        refine List.Pairwise.map _ ?_ hc
        intro a b hab
        simp only [patchedCollection_id]
        exact hab
      · intro q hqs
        obtain ⟨c, hcm, h1, h2⟩ := hq q hqs
        refine ⟨if c.id == i.id then applyCollectionPatch i now c else c, ?_, ?_, ?_⟩
        · show _ ∈ collectionsPatched i now s.collections
          unfold collectionsPatched
          exact List.mem_map_of_mem _ hcm
        · simp only [patchedCollection_id]
          exact h1
        · simp only [patchedCollection_userId]
          exact h2
  | listCollectionsStep ctx s =>
    rw [listCollections_state]; exact ⟨hc, hq⟩
  | createQuoteStep i ctx newId now s fresh =>
    rcases createQuote_state i ctx newId now s with heq | ⟨u, -, ⟨c, hcm, h1, h2⟩, heq⟩
    · rw [heq]; exact ⟨hc, hq⟩
    · rw [heq]
      refine ⟨hc, ?_⟩
      intro q hqs
      cases List.mem_append.mp hqs with
      | inl hold => exact hq q hold
      | inr hnew =>
        have hq' : q = newQuoteRow i newId now u := List.mem_singleton.mp hnew
        subst hq'
        exact ⟨c, hcm, h1, h2⟩
  | updateQuoteStep i ctx now s =>
    rcases updateQuote_state i ctx now s with heq | heq
    · rw [heq]; exact ⟨hc, hq⟩
    · rw [heq]
      refine ⟨hc, ?_⟩
      intro q hqs
      have hqs' : q ∈ quotesPatched i now s.quotes := hqs
      unfold quotesPatched at hqs'
      obtain ⟨q0, hq0, hq0e⟩ := List.mem_map.mp hqs'
      obtain ⟨c, hcm, h1, h2⟩ := hq q0 hq0
      subst hq0e
      refine ⟨c, hcm, ?_, ?_⟩
      · simp only [patchedQuote_collectionId]
        exact h1
      · simp only [patchedQuote_userId]
        exact h2
  | deleteQuoteStep i ctx s =>
    rcases deleteQuote_state i ctx s with heq | heq
    · rw [heq]; exact ⟨hc, hq⟩
    · rw [heq]
      refine ⟨hc, ?_⟩
      intro q hqs
      have hqs' : q ∈ quotesWithout i s.quotes := hqs
      unfold quotesWithout at hqs'
      exact hq q (List.mem_of_mem_filter hqs')
  | listQuotesStep i ctx s =>
    rw [listQuotes_state]; exact ⟨hc, hq⟩

/-- Claim C2: the updateQuote patch never touches a quote's userId or
collectionId, and in every store reachable by any sequence of the seven
operations every quote row's userId equals the userId of its (unique)
parent collection — the denormalized owner copy, set at creation from the
authenticated caller after the Ownership Guard equated that caller with the
collection's owner, stays consistent in every reachable store state. -/
theorem c2_quote_owner_invariant :
    (∀ (i : UpdateQuoteInput) (now : Nat) (q : Quote),
      (applyQuotePatch i now q).userId = q.userId ∧
      (applyQuotePatch i now q).collectionId = q.collectionId) ∧
    ∀ s : Store, Reachable s → Inv s := by
  refine ⟨fun i now q => ⟨rfl, rfl⟩, ?_⟩
  intro s h
  induction h with
  | refl =>
    refine ⟨List.Pairwise.nil, ?_⟩
    intro q hqs
    simp [emptyStore] at hqs
  | tail hsteps hstep ih => exact inv_step hstep ih

/-- Witness for C2: the invariant holds in the concrete store reached by
creating collection c1 as bob and then a quote under it. -/
theorem c2_quote_owner_invariant_witness :
    Inv (createQuote ⟨"c1", "T", none, none, none, none, none, none⟩ (some ⟨"bob"⟩)
      "q1" 1 (createCollection ⟨"N", none, none, none⟩ (some ⟨"bob"⟩) "c1" 0
        emptyStore).2).2 := by
  have h1 : Step emptyStore
      (createCollection ⟨"N", none, none, none⟩ (some ⟨"bob"⟩) "c1" 0 emptyStore).2 :=
    Step.createCollectionStep _ _ _ _ _ (by decide)
  have h2 : Step
      (createCollection ⟨"N", none, none, none⟩ (some ⟨"bob"⟩) "c1" 0 emptyStore).2
      (createQuote ⟨"c1", "T", none, none, none, none, none, none⟩ (some ⟨"bob"⟩)
        "q1" 1 (createCollection ⟨"N", none, none, none⟩ (some ⟨"bob"⟩) "c1" 0
          emptyStore).2).2 :=
    Step.createQuoteStep _ _ _ _ _ (by decide)
  exact c2_quote_owner_invariant.2 _
    (Relation.ReflTransGen.tail (Relation.ReflTransGen.single h1) h2)

/-! ## Filter-embedded write variants (C10) -/

/-- In a list whose keys are pairwise distinct, two members with equal keys
are the same element. -/
theorem pairwise_key_eq {α : Type} {key : α → String} {l : List α}
    (hp : l.Pairwise fun a b => key a ≠ key b) :
    ∀ a ∈ l, ∀ b ∈ l, key a = key b → a = b := by
  induction l with
  | nil =>
    intro a ha
    cases ha
  | cons x xs ih =>
    obtain ⟨hx, hxs⟩ := List.pairwise_cons.mp hp
    intro a ha b hb hk
    rcases List.mem_cons.mp ha with ha' | ha' <;>
      rcases List.mem_cons.mp hb with hb' | hb'
    · rw [ha', hb']
    · subst ha'
      exact absurd hk (hx b hb')
    · subst hb'
      exact absurd hk.symm (hx a ha')
    · exact ih hxs a ha' b hb' hk

/-- The collections table patched with the ownership filter embedded in the
WHERE clause (id AND userId), as §5 of the spec recommends. -/
def collectionsPatchedF (i : UpdateCollectionInput) (now : Nat) (uid : String)
    (l : List Collection) : List Collection :=
  l.map fun c => if c.id == i.id && c.userId == uid then applyCollectionPatch i now c
    else c

/-- Variant of updateCollection whose final write (and RETURNING filter)
embeds the ownership condition id AND userId; only the WHERE clause of the
final UPDATE differs from updateCollection. -/
def updateCollectionFiltered (i : UpdateCollectionInput) (ctx : Ctx) (now : Nat)
    (s : Store) : Except ActionError (Option Collection) × Store :=
  if updateCollectionValid i then
    match requireUser ctx with
    | .error e => (.error e, s)
    | .ok user =>
      match getOwnedCollection i.id user.id s with
      | .error e => (.error e, s)
      | .ok _ =>
        let updated := collectionsPatchedF i now user.id s.collections
        (.ok (updated.filter (fun c => c.id == i.id && c.userId == user.id)).head?,
          { s with collections := updated })
  else (.error invalidInputErr, s)

/-- The quotes table patched with the collection filter embedded in the
WHERE clause (id AND collectionId). -/
def quotesPatchedF (i : UpdateQuoteInput) (now : Nat) (l : List Quote) : List Quote :=
  l.map fun q => if q.id == i.id && q.collectionId == i.collectionId then
    applyQuotePatch i now q else q

/-- Variant of updateQuote whose final write (and RETURNING filter) embeds
the collection condition id AND collectionId; only the WHERE clause of the
final UPDATE differs from updateQuote. -/
def updateQuoteFiltered (i : UpdateQuoteInput) (ctx : Ctx) (now : Nat) (s : Store) :
    Except ActionError (Option Quote) × Store :=
  if updateQuoteValid i then
    match requireUser ctx with
    | .error e => (.error e, s)
    | .ok user =>
      match getOwnedCollection i.collectionId user.id s with
      | .error e => (.error e, s)
      | .ok _ =>
        match s.quotes.find? (fun q => q.id == i.id && q.collectionId == i.collectionId) with
        | none => (.error quoteNotFoundErr, s)
        | some _ =>
          let updated := quotesPatchedF i now s.quotes
          (.ok (updated.filter
              (fun q => q.id == i.id && q.collectionId == i.collectionId)).head?,
            { s with quotes := updated })
  else (.error invalidInputErr, s)

/-- Claim C10: on any store whose collection ids and quote ids are pairwise
distinct (the tables' primary keys), the handlers whose final UPDATE filters
only by row id are observationally equal — same result, same final store —
to the variants whose final write embeds the ownership filter (id AND userId
for updateCollection, id AND collectionId for updateQuote): in the
sequential embedding the preceding guard and existence lookup already pin
down the one row the write can touch. -/
theorem c10_filtered_write_equivalent (s : Store)
    (hcol : s.collections.Pairwise fun a b => a.id ≠ b.id)
    (hqid : s.quotes.Pairwise fun a b => a.id ≠ b.id) :
    (∀ (i : UpdateCollectionInput) (ctx : Ctx) (now : Nat),
      updateCollection i ctx now s = updateCollectionFiltered i ctx now s) ∧
    (∀ (i : UpdateQuoteInput) (ctx : Ctx) (now : Nat),
      updateQuote i ctx now s = updateQuoteFiltered i ctx now s) := by
  constructor
  · intro i ctx now
    by_cases hv : updateCollectionValid i = true
    · cases hr : requireUser ctx with
      | error e => simp [updateCollection, updateCollectionFiltered, hv, hr]
      | ok u =>
        cases hg : getOwnedCollection i.id u.id s with
        | error e => simp [updateCollection, updateCollectionFiltered, hv, hr, hg]
        | ok c =>
          obtain ⟨hcm, hcid, hcu⟩ := getOwnedCollection_ok hg
          have key : ∀ a ∈ s.collections, a.id = i.id → a.userId = u.id := by
            intro a ha hai
            have hac : a = c := pairwise_key_eq hcol a ha c hcm (by rw [hai, hcid])
            rw [hac, hcu]
          have hmap : collectionsPatched i now s.collections
              = collectionsPatchedF i now u.id s.collections := by
            unfold collectionsPatched collectionsPatchedF
            apply List.map_congr_left
            intro a ha
            by_cases h1 : a.id = i.id
            · have h2 := key a ha h1
              simp [h1, h2]
            · simp [h1]
          have hres : (collectionsPatchedF i now u.id s.collections).filter
                (fun x => x.id == i.id)
              = (collectionsPatchedF i now u.id s.collections).filter
                (fun x => x.id == i.id && x.userId == u.id) := by
            apply List.filter_congr
            intro x hx
            unfold collectionsPatchedF at hx
            obtain ⟨a, ha, hax⟩ := List.mem_map.mp hx
            subst hax
            by_cases h1 : a.id = i.id
            · have h2 := key a ha h1
              simp [h1, h2]
            · simp [h1]
          unfold updateCollection updateCollectionFiltered
          rw [if_pos hv, if_pos hv, hr]
          dsimp only
          rw [hg]
          dsimp only
          rw [hmap, hres]
    · simp [updateCollection, updateCollectionFiltered, hv]
  · intro i ctx now
    by_cases hv : updateQuoteValid i = true
    · cases hr : requireUser ctx with
      | error e => simp [updateQuote, updateQuoteFiltered, hv, hr]
      | ok u =>
        cases hg : getOwnedCollection i.collectionId u.id s with
        | error e => simp [updateQuote, updateQuoteFiltered, hv, hr, hg]
        | ok c =>
          cases hf : s.quotes.find?
              (fun q => q.id == i.id && q.collectionId == i.collectionId) with
          | none => simp [updateQuote, updateQuoteFiltered, hv, hr, hg, hf]
          | some q0 =>
            have hq0m := List.mem_of_find?_eq_some hf
            have hq0p := List.find?_some hf
            simp only [Bool.and_eq_true, beq_iff_eq] at hq0p
            have key : ∀ a ∈ s.quotes, a.id = i.id → a.collectionId = i.collectionId := by
              intro a ha hai
              have haq : a = q0 := pairwise_key_eq hqid a ha q0 hq0m
                (by rw [hai, hq0p.1])
              rw [haq, hq0p.2]
            have hmap : quotesPatched i now s.quotes = quotesPatchedF i now s.quotes := by
              unfold quotesPatched quotesPatchedF
              apply List.map_congr_left
              intro a ha
              by_cases h1 : a.id = i.id
              · have h2 := key a ha h1
                simp [h1, h2]
              · simp [h1]
            have hres : (quotesPatchedF i now s.quotes).filter (fun x => x.id == i.id)
                = (quotesPatchedF i now s.quotes).filter
                  (fun x => x.id == i.id && x.collectionId == i.collectionId) := by
              apply List.filter_congr
              intro x hx
              unfold quotesPatchedF at hx
              obtain ⟨a, ha, hax⟩ := List.mem_map.mp hx
              subst hax
              by_cases h1 : a.id = i.id
              · have h2 := key a ha h1
                simp [h1, h2]
              · simp [h1]
            unfold updateQuote updateQuoteFiltered
            rw [if_pos hv, if_pos hv, hr]
            dsimp only
            rw [hg]
            dsimp only
            rw [hf]
            dsimp only
            rw [hmap, hres]
    · simp [updateQuote, updateQuoteFiltered, hv]

/-- Witness for C10: on the concrete store where bob owns c1 with quote q1,
both handlers coincide with their filter-embedded variants. -/
theorem c10_filtered_write_equivalent_witness :
    updateCollection ⟨"c1", some "M", none, none, none⟩ (some ⟨"bob"⟩) 6 c4Store
      = updateCollectionFiltered ⟨"c1", some "M", none, none, none⟩
        (some ⟨"bob"⟩) 6 c4Store ∧
    updateQuote ⟨"q1", "c1", none, none, some "zen", none, none, none, none⟩
        (some ⟨"bob"⟩) 6 c4Store
      = updateQuoteFiltered ⟨"q1", "c1", none, none, some "zen", none, none, none, none⟩
        (some ⟨"bob"⟩) 6 c4Store := by
  have h := c10_filtered_write_equivalent c4Store (by simp [c4Store])
    (by simp [c4Store])
  exact ⟨h.1 _ _ 6, h.2 _ _ 6⟩

end QuoteForge
